import Mathlib

/-!
Verification of the play animation & timeline engine of the ai-coach-launchpad
repository: the coordinate mapper, path resolver, timeline interpolator and
animation driver found in `src/components/play-creator/Court3D.tsx`,
`src/pages/CreatePlay.tsx`, `src/components/play-creator/VoiceOverlay.tsx` and
the unnamed Court3D variants. JavaScript numbers are modelled as exact
rationals (ℚ); `Math.floor` is `Int.floor`; `actions.find(...)` is
`List.find?`; optional fields (`waypoints`, `delay`) are `Option` values read
with the code's `|| []` / `|| 0` defaults.
-/

/-- Action type tag; `src/pages/CreatePlay.tsx` field
`type: "pass" | "move" | "screen" | "dribble"`. -/
inductive ActionType where
  | pass
  | move
  | screen
  | dribble
deriving DecidableEq, Repr

/-- A 2D authoring-canvas point, as in `waypoints?: { x, y }[]`. -/
structure Point where
  x : ℚ
  y : ℚ
deriving DecidableEq, Repr

/-- The fields of `CourtPlayer` that the engine reads (id, base x, base y);
team/number/position are display-only bookkeeping the motion code never uses. -/
structure CourtPlayer where
  id : ℕ
  x : ℚ
  y : ℚ
deriving DecidableEq, Repr

/-- The `CourtAction` record of `CreatePlay.tsx` / `Court3D.tsx`. -/
structure CourtAction where
  type : ActionType
  fromX : ℚ
  fromY : ℚ
  toX : ℚ
  toY : ℚ
  stepIndex : ℕ
  waypoints : Option (List Point) := none
  delay : Option ℚ := none
deriving DecidableEq, Repr

/-- Court mode, `type CourtMode = "full" | "half"`. -/
inductive CourtMode where
  | full
  | half
deriving DecidableEq, Repr

/-- `const FT = 0.3048` (Court3D.tsx line 45). -/
def FT : ℚ := 0.3048

/-- `const COURT_LENGTH = 94 * FT` (Court3D.tsx line 46). -/
def COURT_LENGTH : ℚ := 94 * FT

/-- `const COURT_WIDTH = 50 * FT` (Court3D.tsx line 47). -/
def COURT_WIDTH : ℚ := 50 * FT

/-- `const HALF_L = COURT_LENGTH / 2` (Court3D.tsx line 48). -/
def HALF_L : ℚ := COURT_LENGTH / 2

/-- `const HALF_W = COURT_WIDTH / 2` (Court3D.tsx line 49). -/
def HALF_W : ℚ := COURT_WIDTH / 2

/-- `toCourtPos(x, y, mode)` of Court3D.tsx: 2D canvas (0-800, 0-500) →
3D court coords `[px, 0, pz]`. -/
def toCourtPos (x y : ℚ) (mode : CourtMode) : ℚ × ℚ × ℚ :=
  match mode with
  | .half => ((x / 800) * HALF_L, 0, (y / 500) * COURT_WIDTH - HALF_W)
  | .full => ((x / 800) * COURT_LENGTH - HALF_L, 0, (y / 500) * COURT_WIDTH - HALF_W)

/-- `fromCourtPos(px, pz, mode)` of Court3D.tsx, the inverse mapping. -/
def fromCourtPos (px pz : ℚ) (mode : CourtMode) : ℚ × ℚ :=
  match mode with
  | .half => ((px / HALF_L) * 800, ((pz + HALF_W) / COURT_WIDTH) * 500)
  | .full => (((px + HALF_L) / COURT_LENGTH) * 800, ((pz + HALF_W) / COURT_WIDTH) * 500)

/-- The motion-type filter `a.type === "move" || a.type === "dribble" ||
a.type === "screen"` shared by `getPlayerPositionAtStep` (CreatePlay.tsx) and
`getAnimatedPlayerPositions` (Court3D.tsx and the unnamed variant). -/
def isMotionType (t : ActionType) : Bool :=
  t == .move || t == .dribble || t == .screen

/-- `const TOLERANCE = 50` of CreatePlay.tsx / Court3D.tsx. -/
def TOLERANCE : ℚ := 50

/-- The predicate passed to `actions.find(...)` in `getPlayerPositionAtStep`
(CreatePlay.tsx lines 56-62) and `getAnimatedPlayerPositions` (Court3D.tsx
lines 301-308): same step, motion type, and per-axis strict proximity of the
action's `from` to the running position `(cx, cy)`. -/
def matchesMotion (cx cy : ℚ) (step : ℕ) (a : CourtAction) : Bool :=
  a.stepIndex == step && isMotionType a.type &&
    decide (|a.fromX - cx| < TOLERANCE) && decide (|a.fromY - cy| < TOLERANCE)

namespace CreatePlay

/-- One iteration of the `for (let step = 0; step < targetStep; step++)` loop
of `getPlayerPositionAtStep`: apply the matched action's destination, or keep
the running position when no action matches. -/
def resolveStep (actions : List CourtAction) (step : ℕ) (c : ℚ × ℚ) : ℚ × ℚ :=
  match actions.find? (matchesMotion c.1 c.2 step) with
  | some act => (act.toX, act.toY)
  | none => c

/-- `getPlayerPositionAtStep(player, actions, targetStep)` of CreatePlay.tsx:
the path resolver, fully applying matched actions of steps `0..targetStep-1`. -/
def getPlayerPositionAtStep (player : CourtPlayer) (actions : List CourtAction)
    (targetStep : ℕ) : ℚ × ℚ :=
  (List.range targetStep).foldl (fun c step => resolveStep actions step c)
    (player.x, player.y)

end CreatePlay

/-- The inline multi-waypoint interpolation of `getAnimatedPlayerPositions`
(identical in Court3D.tsx lines 318-329 and the unnamed variant): the point on
the path `[from, ...waypoints, to]` at fraction `f`, with
`segProgress = f * segments`, segment index `min ⌊segProgress⌋ (segments - 1)`
and linear interpolation inside the segment. -/
def pathPointAt (p0 : Point) (ws : List Point) (pn : Point) (f : ℚ) : Point :=
  let allPoints : List Point := p0 :: (ws ++ [pn])
  let segments : ℤ := (allPoints.length : ℤ) - 1
  let segProgress : ℚ := f * (segments : ℚ)
  let segIdx : ℤ := min ⌊segProgress⌋ (segments - 1)
  let a := allPoints.getD segIdx.toNat p0
  let b := allPoints.getD (segIdx.toNat + 1) p0
  let segFrac : ℚ := segProgress - (segIdx : ℚ)
  ⟨a.x + (b.x - a.x) * segFrac, a.y + (b.y - a.y) * segFrac⟩

namespace Court3D

/-- One iteration of the step loop in `getAnimatedPlayerPositions`
(Court3D.tsx lines 301-331). Note this variant uses `act.delay` directly as a
step fraction (`effectiveFrac = max(0, (frac - delay) / (1 - delay))`) with no
playback-speed conversion and no 0.99 clamp. -/
def animStep (actions : List CourtAction) (completedStep : ℤ) (frac : ℚ)
    (step : ℕ) (c : ℚ × ℚ) : ℚ × ℚ :=
  match actions.find? (matchesMotion c.1 c.2 step) with
  | none => c
  | some act =>
    let delay : ℚ := act.delay.getD 0
    let effectiveFrac : ℚ :=
      if (step : ℤ) < completedStep then 1 else max 0 ((frac - delay) / (1 - delay))
    if (step : ℤ) < completedStep ∨ 1 ≤ effectiveFrac then (act.toX, act.toY)
    else if 0 < effectiveFrac then
      let pt := pathPointAt ⟨act.fromX, act.fromY⟩ (act.waypoints.getD [])
        ⟨act.toX, act.toY⟩ effectiveFrac
      (pt.x, pt.y)
    else c

/-- The authoring-space position of one player computed by
`getAnimatedPlayerPositions` (Court3D.tsx lines 285-339) before the final
`toCourtPos` conversion: the `(cx, cy)` fold over steps
`0 .. min(⌊progress⌋, totalSteps - 1)` inclusive. -/
def animAuthoringPos (player : CourtPlayer) (actions : List CourtAction)
    (progress : ℚ) (totalSteps : ℕ) : ℚ × ℚ :=
  let completedStep : ℤ := ⌊progress⌋
  let frac : ℚ := progress - (completedStep : ℚ)
  let lastStep : ℤ := min completedStep ((totalSteps : ℤ) - 1)
  (List.range (lastStep + 1).toNat).foldl
    (fun c step => animStep actions completedStep frac step c)
    (player.x, player.y)

/-- `getAnimatedPlayerPositions(players, actions, progress, totalSteps, mode)`
of Court3D.tsx: per-player court-space positions keyed by player id. -/
def getAnimatedPlayerPositions (players : List CourtPlayer)
    (actions : List CourtAction) (progress : ℚ) (totalSteps : ℕ)
    (mode : CourtMode) : List (ℕ × (ℚ × ℚ × ℚ)) :=
  players.map (fun p =>
    let c := animAuthoringPos p actions progress totalSteps
    (p.id, toCourtPos c.1 c.2 mode))

end Court3D

namespace Part002

/-- One iteration of the step loop in the unnamed Court3D variant's
`getAnimatedPlayerPositions` (src/unnamed/part_002 lines 336-391). Unlike
Court3D.tsx this variant converts the delay from seconds to a step-duration
fraction: `delayFrac = Math.min(delay * speed, 0.99)`. -/
def animStep (actions : List CourtAction) (speed : ℚ) (completedStep : ℤ)
    (frac : ℚ) (step : ℕ) (c : ℚ × ℚ) : ℚ × ℚ :=
  match actions.find? (matchesMotion c.1 c.2 step) with
  | none => c
  | some act =>
    let delay : ℚ := act.delay.getD 0
    let delayFrac : ℚ := min (delay * speed) 0.99
    let effectiveFrac : ℚ :=
      if (step : ℤ) < completedStep then 1
      else max 0 ((frac - delayFrac) / (1 - delayFrac))
    if (step : ℤ) < completedStep ∨ 1 ≤ effectiveFrac then (act.toX, act.toY)
    else if 0 < effectiveFrac then
      let pt := pathPointAt ⟨act.fromX, act.fromY⟩ (act.waypoints.getD [])
        ⟨act.toX, act.toY⟩ effectiveFrac
      (pt.x, pt.y)
    else c

/-- The authoring-space position of one player computed by the unnamed
variant's `getAnimatedPlayerPositions(players, actions, progress, totalSteps,
mode, speed = 1)` before its final `toCourtPos` conversion. -/
def animAuthoringPos (player : CourtPlayer) (actions : List CourtAction)
    (progress : ℚ) (totalSteps : ℕ) (speed : ℚ) : ℚ × ℚ :=
  let completedStep : ℤ := ⌊progress⌋
  let frac : ℚ := progress - (completedStep : ℚ)
  let lastStep : ℤ := min completedStep ((totalSteps : ℤ) - 1)
  (List.range (lastStep + 1).toNat).foldl
    (fun c step => animStep actions speed completedStep frac step c)
    (player.x, player.y)

end Part002

namespace VoiceOverlay

/-- `const toCourtPos = (x, y) => [(x/800)*28.65 - 14.325, 0, (y/500)*15.24 - 7.62]`
of VoiceOverlay.tsx (line 406). -/
def toCourtPos (x y : ℚ) : ℚ × ℚ × ℚ :=
  ((x / 800) * 28.65 - 14.325, 0, (y / 500) * 15.24 - 7.62)

/-- The predicate passed to `actions.filter(...)` in
`computeAnimatedPositions` (VoiceOverlay.tsx lines 434-440): tolerance 40 and
only move/dribble types. -/
def matchesVO (currentX currentY : ℚ) (step : ℕ) (a : CourtAction) : Bool :=
  a.stepIndex == step && (a.type == .move || a.type == .dribble) &&
    decide (|a.fromX - currentX| < 40) && decide (|a.fromY - currentY| < 40)

/-- One iteration of the step loop in `computeAnimatedPositions`
(VoiceOverlay.tsx lines 432-454): filter matching actions, take the first,
fully apply completed steps and linearly interpolate the current one. -/
def computeStep (actions : List CourtAction) (completedStep : ℤ)
    (stepFraction : ℚ) (step : ℕ) (c : ℚ × ℚ) : ℚ × ℚ :=
  match actions.filter (matchesVO c.1 c.2 step) with
  | [] => c
  | action :: _ =>
    if (step : ℤ) < completedStep then (action.toX, action.toY)
    else (action.fromX + (action.toX - action.fromX) * stepFraction,
          action.fromY + (action.toY - action.fromY) * stepFraction)

/-- The authoring-space position of one player in `computeAnimatedPositions`
(VoiceOverlay.tsx lines 415-459) before its `toCourtPos` conversion. -/
def computeAuthoringPos (player : CourtPlayer) (actions : List CourtAction)
    (animationProgress : ℚ) (totalSteps : ℕ) : ℚ × ℚ :=
  let completedStep : ℤ := ⌊animationProgress⌋
  let stepFraction : ℚ := animationProgress - (completedStep : ℚ)
  let lastStep : ℤ := min completedStep ((totalSteps : ℤ) - 1)
  (List.range (lastStep + 1).toNat).foldl
    (fun c step => computeStep actions completedStep stepFraction step c)
    (player.x, player.y)

end VoiceOverlay

/-- `const totalSteps = actions.length > 0 ? Math.max(...actions.map(a =>
a.stepIndex)) + 1 : 1` of `AnimatedScene` (Court3D.tsx line 364). -/
def totalStepsOf (actions : List CourtAction) : ℕ :=
  match actions with
  | [] => 1
  | a :: rest => (rest.map (fun x => x.stepIndex)).foldl max a.stepIndex + 1

namespace Court3D

/-- The mutable per-frame state of `AnimatedScene` (Court3D.tsx): the
`progressRef` scalar and the `animationEndedRef` flag. -/
structure DriverState where
  progress : ℚ
  ended : Bool
deriving DecidableEq, Repr

/-- Observable per-tick output of the `useFrame` callback: the authoritative
interpolated positions published to the render objects (the smoothing
`lerp(pos, 0.15)` toward them is a rendering nicety outside the authoritative
model), and the delay in milliseconds of a `setTimeout(onAnimationEnd, 800)`
scheduled on this tick, if any. -/
structure TickOutput where
  published : Option (List (ℕ × (ℚ × ℚ × ℚ)))
  endScheduledAfterMs : Option ℚ
deriving DecidableEq, Repr

/-- The `useFrame((_, delta) => ...)` body of `AnimatedScene` (Court3D.tsx
lines 384-410): advance `progress` by `delta * speed`; past the end, clamp to
`totalSteps`, publish the final positions, set the ended flag and schedule the
end notification after 800 ms; otherwise publish the interpolated positions. -/
def tick (players : List CourtPlayer) (actions : List CourtAction)
    (mode : CourtMode) (speed : ℚ) (isAnimating : Bool) (dt : ℚ)
    (s : DriverState) : DriverState × TickOutput :=
  if !isAnimating || s.ended then (s, ⟨none, none⟩)
  else
    let totalSteps := totalStepsOf actions
    let p := s.progress + dt * speed
    if (totalSteps : ℚ) ≤ p then
      (⟨(totalSteps : ℚ), true⟩,
       ⟨some (getAnimatedPlayerPositions players actions (totalSteps : ℚ)
          totalSteps mode), some 800⟩)
    else
      (⟨p, false⟩,
       ⟨some (getAnimatedPlayerPositions players actions p totalSteps mode),
        none⟩)

/-- The `useEffect` of `AnimatedScene` (Court3D.tsx lines 372-382) on a
transition from not-animating to animating: `progressRef.current = 0;
animationEndedRef.current = false` regardless of the previous state. -/
def resetOnStart (_s : DriverState) : DriverState :=
  ⟨0, false⟩

/-- Run a sequence of ticks from a state, collecting each tick's output:
the authoritative output trace of an animation run driven by the per-tick
elapsed times `dts`. -/
def runTicks (players : List CourtPlayer) (actions : List CourtAction)
    (mode : CourtMode) (speed : ℚ) (s : DriverState) (dts : List ℚ) :
    List TickOutput :=
  match dts with
  | [] => []
  | dt :: rest =>
    let r := tick players actions mode speed true dt s
    r.2 :: runTicks players actions mode speed r.1 rest

end Court3D

/-- Stated from the spec's wording, for comparison with the code: the §4.3
delay conversion `delayFrac = clamp(delay * speed, 0, 0.99)`. -/
def specDelayFrac (delay speed : ℚ) : ℚ :=
  max 0 (min (delay * speed) 0.99)

/-- Stated from the spec's wording, for comparison with the code: the §4.3
post-delay motion fraction
`effectiveFrac = clamp((stepFrac - delayFrac) / (1 - delayFrac), 0, 1)`. -/
def specEffectiveFrac (stepFrac delayFrac : ℚ) : ℚ :=
  max 0 (min ((stepFrac - delayFrac) / (1 - delayFrac)) 1)

/-- Folding a function that ignores its list argument leaves the accumulator
unchanged (an unmatched player's fold is the identity at every step). -/
theorem foldl_const {α β : Type} (l : List β) (c : α) :
    l.foldl (fun acc _ => acc) c = c := by
  induction l with
  | nil => rfl
  | cons b rest ih => simp [ih]

/-- At fraction 0 the multi-waypoint path interpolation sits at the path's
first point `from`. -/
theorem pathPointAt_zero (p0 : Point) (ws : List Point) (pn : Point) :
    pathPointAt p0 ws pn 0 = p0 := by
  unfold pathPointAt
  have h1 : (0 : ℚ) * (((p0 :: (ws ++ [pn])).length : ℤ) - 1 : ℤ) = 0 := by
    simp
  simp only [h1, Int.floor_zero]
  have h2 : min (0 : ℤ) (((p0 :: (ws ++ [pn])).length : ℤ) - 1 - 1) = 0 := by
    simp [List.length_cons, List.length_append]
  simp [h2]

/-- When the step is strictly before the completed step, one interpolator
step of Court3D's `getAnimatedPlayerPositions` coincides with one resolver
step of CreatePlay's `getPlayerPositionAtStep`: the matched action is fully
applied. -/
theorem animStep_eq_resolveStep_of_lt (actions : List CourtAction)
    (completedStep : ℤ) (frac : ℚ) (step : ℕ) (c : ℚ × ℚ)
    (h : (step : ℤ) < completedStep) :
    Court3D.animStep actions completedStep frac step c =
      CreatePlay.resolveStep actions step c := by
  unfold Court3D.animStep CreatePlay.resolveStep
  cases actions.find? (matchesMotion c.1 c.2 step) with
  | none => rfl
  | some act => simp [h]

/-- At any progress at or past `totalSteps`, the interpolator's
authoring-space position equals the path resolver's full resolution. Shared
by the idempotence and driver-end theorems. -/
theorem animAuthoringPos_eq_resolve_of_le (p : CourtPlayer)
    (actions : List CourtAction) (totalSteps : ℕ) (progress : ℚ)
    (h : (totalSteps : ℚ) ≤ progress) :
    Court3D.animAuthoringPos p actions progress totalSteps =
      CreatePlay.getPlayerPositionAtStep p actions totalSteps := by
  simp only [Court3D.animAuthoringPos, CreatePlay.getPlayerPositionAtStep]
  have hfloor : (totalSteps : ℤ) ≤ ⌊progress⌋ := by
    rw [Int.le_floor]; exact_mod_cast h
  have hlast : min ⌊progress⌋ ((totalSteps : ℤ) - 1) = (totalSteps : ℤ) - 1 :=
    min_eq_right (by omega)
  rw [hlast]
  have hrange : ((totalSteps : ℤ) - 1 + 1).toNat = totalSteps := by omega
  rw [hrange]
  apply List.foldl_ext
  intro c step hstep
  have hmem : step < totalSteps := List.mem_range.mp hstep
  exact animStep_eq_resolveStep_of_lt actions ⌊progress⌋ _ step c (by omega)

/-- C3: steps strictly before `⌊progress⌋` are applied in full, never
re-interpolated: with one player at (0,0), step 0 moving (0,0)→(50,0) and
step 1 moving (50,0)→(50,50), the authoring-space position at progress 1.5
is exactly (50, 25) — halfway through step 1 only — and not (25, 25). -/
theorem steps_before_floor_fully_applied :
    Court3D.animAuthoringPos ⟨0, 0, 0⟩
      [⟨.move, 0, 0, 50, 0, 0, none, none⟩, ⟨.move, 50, 0, 50, 50, 1, none, none⟩]
      (3/2) 2 = (50, 25) ∧
    Court3D.animAuthoringPos ⟨0, 0, 0⟩
      [⟨.move, 0, 0, 50, 0, 0, none, none⟩, ⟨.move, 50, 0, 50, 50, 1, none, none⟩]
      (3/2) 2 ≠ (25, 25) := by
  have hf : ⌊(3/2 : ℚ)⌋ = 1 := by norm_num
  constructor <;>
    · simp [Court3D.animAuthoringPos, hf, Court3D.animStep, List.range_succ,
        matchesMotion, isMotionType, TOLERANCE, List.find?, pathPointAt]
      norm_num

/-- C5: for every authoring-space point and both court modes the coordinate
mapping is affine per axis and exactly invertible:
`fromCourtPos (toCourtPos x y mode) mode = (x, y)`; both functions are total,
so out-of-range inputs are mapped with no error condition. -/
theorem court_mapping_round_trip (x y : ℚ) (mode : CourtMode) :
    fromCourtPos (toCourtPos x y mode).1 (toCourtPos x y mode).2.2 mode = (x, y) := by
  cases mode <;>
    · simp only [toCourtPos, fromCourtPos, HALF_L, HALF_W, COURT_LENGTH,
        COURT_WIDTH, FT, Prod.mk.injEq]
      constructor <;> · ring_nf; try norm_num

/-- C10: action-to-player matching is per-axis (Chebyshev), not Euclidean:
the engine predicate (tolerance 50) accepts an action displaced by (49, 49)
even though its Euclidean distance exceeds 50 (49² + 49² > 50²), and the
resolver consequently moves the player; the VoiceOverlay variant uses
tolerance 40 and rejects the same offset while accepting (39, 39). -/
theorem tolerance_chebyshev_matching :
    matchesMotion 0 0 0 ⟨.move, 49, 49, 100, 100, 0, none, none⟩ = true ∧
    (49 : ℚ)^2 + 49^2 > 50^2 ∧
    CreatePlay.getPlayerPositionAtStep ⟨0, 0, 0⟩
      [⟨.move, 49, 49, 100, 100, 0, none, none⟩] 1 = (100, 100) ∧
    VoiceOverlay.matchesVO 0 0 0 ⟨.move, 49, 49, 100, 100, 0, none, none⟩ = false ∧
    VoiceOverlay.matchesVO 0 0 0 ⟨.move, 39, 39, 100, 100, 0, none, none⟩ = true := by
  refine ⟨?_, by norm_num, ?_, ?_, ?_⟩ <;>
    · simp [matchesMotion, VoiceOverlay.matchesVO, isMotionType, TOLERANCE,
        CreatePlay.getPlayerPositionAtStep, CreatePlay.resolveStep,
        List.range_succ, List.find?]
      norm_num

/-- C1: evaluating the timeline interpolator at `progress = totalSteps` (and
at any `progress ≥ totalSteps`) gives every player the same authoring-space
position as the path resolver's full resolution
`getPlayerPositionAtStep(p, actions, totalSteps)`. -/
theorem interpolate_full_resolution (p : CourtPlayer)
    (actions : List CourtAction) (totalSteps : ℕ) (progress : ℚ)
    (h : (totalSteps : ℚ) ≤ progress) :
    Court3D.animAuthoringPos p actions progress totalSteps =
      CreatePlay.getPlayerPositionAtStep p actions totalSteps :=
  animAuthoringPos_eq_resolve_of_le p actions totalSteps progress h

/-- Witness for `interpolate_full_resolution` at a concrete two-step play and
`progress = 5/2 ≥ totalSteps = 2`. -/
theorem interpolate_full_resolution_witness :
    ((2 : ℕ) : ℚ) ≤ (5/2 : ℚ) ∧
    Court3D.animAuthoringPos ⟨0, 0, 0⟩
      [⟨.move, 0, 0, 50, 0, 0, none, none⟩, ⟨.move, 50, 0, 50, 50, 1, none, none⟩]
      (5/2) 2 =
      CreatePlay.getPlayerPositionAtStep ⟨0, 0, 0⟩
        [⟨.move, 0, 0, 50, 0, 0, none, none⟩, ⟨.move, 50, 0, 50, 50, 1, none, none⟩]
        2 :=
  ⟨by norm_num, interpolate_full_resolution _ _ 2 (5/2) (by norm_num)⟩

/-- C4: with `k` waypoints the path `[from, waypoint_1, ..., waypoint_k, to]`
is traversed as `k+1` equal-duration segments: at `effectiveFrac = i/(k+1)`
(for `1 ≤ i ≤ k`) the interpolated point is exactly the `i`-th waypoint; in
particular a 2-waypoint path passes exactly through waypoint 1 at `1/3` and
waypoint 2 at `2/3`. -/
theorem waypoint_segmentation (p0 pn : Point) (ws : List Point) (i : ℕ)
    (h1 : 1 ≤ i) (h2 : i ≤ ws.length) :
    pathPointAt p0 ws pn ((i : ℚ) / ((ws.length : ℚ) + 1)) = ws.getD (i - 1) p0 := by
  obtain ⟨j, rfl⟩ : ∃ j, i = j + 1 := ⟨i - 1, by omega⟩
  have hk1 : ((ws.length : ℚ) + 1) ≠ 0 := by positivity
  simp only [pathPointAt, List.length_cons, List.length_append,
    List.length_singleton, List.length_nil]
  have ha : ((ws.length + (0 + 1) + 1 : ℕ) : ℤ) - 1 = (ws.length : ℤ) + 1 := by
    push_cast; ring
  rw [ha]
  have hb : ((j + 1 : ℕ) : ℚ) / ((ws.length : ℚ) + 1) * (((ws.length : ℤ) + 1 : ℤ) : ℚ)
      = ((j + 1 : ℕ) : ℚ) := by
    push_cast
    field_simp
  rw [hb]
  have hc : ⌊((j + 1 : ℕ) : ℚ)⌋ = ((j + 1 : ℕ) : ℤ) := Int.floor_natCast _
  rw [hc]
  have hd : ((j + 1 : ℕ) : ℤ) ⊓ ((ws.length : ℤ) + 1 - 1) = ((j + 1 : ℕ) : ℤ) := by
    omega
  rw [hd]
  have he : ((j + 1 : ℕ) : ℤ).toNat = j + 1 := by omega
  rw [he]
  have hf2 : ((j + 1 : ℕ) : ℚ) - (((j + 1 : ℕ) : ℤ) : ℚ) = 0 := by push_cast; ring
  rw [hf2]
  have hj : j < ws.length := by omega
  rw [List.getD_cons_succ]
  rw [show (ws ++ [pn]).getD j p0 = ws.getD j p0 from by
    simp [List.getD, List.getElem?_append_left hj]]
  simp

/-- Witness for `waypoint_segmentation`: a 2-waypoint path evaluated at
`effectiveFrac = 1/3` lands exactly on the first waypoint. -/
theorem waypoint_segmentation_witness :
    1 ≤ 1 ∧ 1 ≤ [(⟨30, 0⟩ : Point), ⟨60, 0⟩].length ∧
    pathPointAt ⟨0, 0⟩ [⟨30, 0⟩, ⟨60, 0⟩] ⟨90, 90⟩
        (((1 : ℕ) : ℚ) / (([(⟨30, 0⟩ : Point), ⟨60, 0⟩].length : ℚ) + 1)) =
      [(⟨30, 0⟩ : Point), ⟨60, 0⟩].getD (1 - 1) ⟨0, 0⟩ :=
  ⟨by decide, by decide,
    waypoint_segmentation ⟨0, 0⟩ ⟨90, 90⟩ [⟨30, 0⟩, ⟨60, 0⟩] 1 (by decide) (by decide)⟩

/-- C2: in the interpolator variant that takes the playback speed
(src/unnamed/part_002), an in-flight matched action with delay `d ≥ 0`
seconds and speed `s > 0` with `d*s < 1` is gated by
`delayFrac = clamp(d*s, 0, 0.99)`: the acting player stays exactly at the
action's `from` for every `stepFrac < delayFrac`, and afterwards moves along
the action's path at `effectiveFrac = clamp((stepFrac - delayFrac) /
(1 - delayFrac), 0, 1)`. -/
theorem delay_gating (actions : List CourtAction) (a : CourtAction)
    (cx cy frac speed : ℚ) (step : ℕ) (completedStep : ℤ)
    (hfind : actions.find? (matchesMotion cx cy step) = some a)
    (hstep : (step : ℤ) = completedStep)
    (hx : cx = a.fromX) (hy : cy = a.fromY)
    (hd : 0 ≤ a.delay.getD 0) (hs : 0 < speed)
    (_hds : a.delay.getD 0 * speed < 1)
    (_hf0 : 0 ≤ frac) (hf1 : frac < 1) :
    Part002.animStep actions speed completedStep frac step (cx, cy) =
      if frac < specDelayFrac (a.delay.getD 0) speed then (a.fromX, a.fromY)
      else
        ((pathPointAt ⟨a.fromX, a.fromY⟩ (a.waypoints.getD []) ⟨a.toX, a.toY⟩
            (specEffectiveFrac frac (specDelayFrac (a.delay.getD 0) speed))).x,
         (pathPointAt ⟨a.fromX, a.fromY⟩ (a.waypoints.getD []) ⟨a.toX, a.toY⟩
            (specEffectiveFrac frac (specDelayFrac (a.delay.getD 0) speed))).y) := by
  have hnlt : ¬ ((step : ℤ) < completedStep) := by omega
  have hclamp : specDelayFrac (a.delay.getD 0) speed
      = min (a.delay.getD 0 * speed) 0.99 :=
    max_eq_right (le_min (mul_nonneg hd hs.le) (by norm_num))
  set D : ℚ := min (a.delay.getD 0 * speed) 0.99 with hD
  have hD0 : 0 ≤ D := le_min (mul_nonneg hd hs.le) (by norm_num)
  have hD1 : D < 1 := lt_of_le_of_lt (min_le_right _ _) (by norm_num)
  have h1D : 0 < 1 - D := by linarith
  simp only [Part002.animStep, hfind, hnlt, if_false, hclamp]
  by_cases hcase : frac < D
  · have hratio : (frac - D) / (1 - D) < 0 :=
      div_neg_of_neg_of_pos (by linarith) h1D
    have heff : max 0 ((frac - D) / (1 - D)) = 0 := max_eq_left hratio.le
    rw [heff]
    rw [if_neg (by norm_num), if_neg (by norm_num), if_pos hcase]
    simp [hx, hy]
  · have hge : D ≤ frac := not_lt.mp hcase
    have hrge : 0 ≤ (frac - D) / (1 - D) := div_nonneg (by linarith) h1D.le
    have hrlt : (frac - D) / (1 - D) < 1 := (div_lt_one h1D).mpr (by linarith)
    have heff : max 0 ((frac - D) / (1 - D)) = (frac - D) / (1 - D) :=
      max_eq_right hrge
    rw [heff]
    have hspec : specEffectiveFrac frac D = (frac - D) / (1 - D) := by
      unfold specEffectiveFrac
      rw [min_eq_left hrlt.le, max_eq_right hrge]
    rw [if_neg (by simpa using not_le.mpr hrlt), if_neg hcase, hspec]
    by_cases hpos : 0 < (frac - D) / (1 - D)
    · rw [if_pos hpos]
    · have h0 : (frac - D) / (1 - D) = 0 := le_antisymm (not_lt.mp hpos) hrge
      rw [if_neg hpos, h0, pathPointAt_zero]
      simp [hx, hy]

/-- Witness for `delay_gating`: delay 1/2 s at speed 1 step/s and
`stepFrac = 3/4` puts the player halfway along the path, at (50, 0). -/
theorem delay_gating_witness :
    Part002.animStep [⟨.move, 0, 0, 100, 0, 0, none, some (1/2)⟩] 1 0 (3/4) 0 (0, 0)
      = (50, 0) := by
  have h := delay_gating [⟨.move, 0, 0, 100, 0, 0, none, some (1/2)⟩]
      ⟨.move, 0, 0, 100, 0, 0, none, some (1/2)⟩ 0 0 (3/4) 1 0 0
      (by simp [List.find?, matchesMotion, isMotionType, TOLERANCE]; try norm_num)
      rfl rfl rfl (by norm_num) (by norm_num) (by norm_num) (by norm_num) (by norm_num)
  rw [h]
  have hD : specDelayFrac ((some (1/2 : ℚ)).getD 0) 1 = 1/2 := by
    simp [specDelayFrac]
    try norm_num
  rw [hD]
  rw [if_neg (by norm_num)]
  have hE : specEffectiveFrac (3/4) (1/2) = 1/2 := by
    simp [specEffectiveFrac]
    try norm_num
  rw [hE]
  have hP : pathPointAt ⟨0, 0⟩ ((none : Option (List Point)).getD []) ⟨100, 0⟩ (1/2)
      = ⟨50, 0⟩ := by
    simp [pathPointAt]
    try norm_num
  rw [hP]

/-- Helper: when no step ever matches, the resolver returns the player's
base position unchanged. -/
theorem getPlayerPositionAtStep_of_never_match (p : CourtPlayer)
    (actions : List CourtAction) (targetStep : ℕ)
    (h : ∀ cx cy step, actions.find? (matchesMotion cx cy step) = none) :
    CreatePlay.getPlayerPositionAtStep p actions targetStep = (p.x, p.y) := by
  unfold CreatePlay.getPlayerPositionAtStep
  calc (List.range targetStep).foldl
        (fun c step => CreatePlay.resolveStep actions step c) (p.x, p.y)
      = (List.range targetStep).foldl (fun c _ => c) (p.x, p.y) := by
        apply List.foldl_ext
        intro c step _
        unfold CreatePlay.resolveStep
        rw [h]
    _ = (p.x, p.y) := foldl_const _ _

/-- Helper: when no step ever matches, the interpolator returns the player's
base position unchanged at every progress. -/
theorem animAuthoringPos_of_never_match (p : CourtPlayer)
    (actions : List CourtAction) (progress : ℚ) (totalSteps : ℕ)
    (h : ∀ cx cy step, actions.find? (matchesMotion cx cy step) = none) :
    Court3D.animAuthoringPos p actions progress totalSteps = (p.x, p.y) := by
  simp only [Court3D.animAuthoringPos]
  calc (List.range (min ⌊progress⌋ ((totalSteps : ℤ) - 1) + 1).toNat).foldl
        (fun c step => Court3D.animStep actions ⌊progress⌋ (progress - (⌊progress⌋ : ℚ)) step c)
        (p.x, p.y)
      = (List.range (min ⌊progress⌋ ((totalSteps : ℤ) - 1) + 1).toNat).foldl
          (fun c _ => c) (p.x, p.y) := by
        apply List.foldl_ext
        intro c step _
        unfold Court3D.animStep
        rw [h]
    _ = (p.x, p.y) := foldl_const _ _

/-- C6 counterexample: a `pass` action is NOT semantically equivalent to a
`move` for motion: with the player at (0,0) and an action (0,0)→(100,0) at
step 0, the resolver leaves the player at (0,0) when the action is a pass but
moves them to (100,0) when it is a move. -/
theorem pass_vs_move_cex :
    CreatePlay.getPlayerPositionAtStep ⟨0, 0, 0⟩
        [⟨.pass, 0, 0, 100, 0, 0, none, none⟩] 1 = (0, 0) ∧
    CreatePlay.getPlayerPositionAtStep ⟨0, 0, 0⟩
        [⟨.move, 0, 0, 100, 0, 0, none, none⟩] 1 = (100, 0) ∧
    CreatePlay.getPlayerPositionAtStep ⟨0, 0, 0⟩
        [⟨.pass, 0, 0, 100, 0, 0, none, none⟩] 1 ≠
      CreatePlay.getPlayerPositionAtStep ⟨0, 0, 0⟩
        [⟨.move, 0, 0, 100, 0, 0, none, none⟩] 1 := by
  refine ⟨?_, ?_, ?_⟩ <;>
    · simp [CreatePlay.getPlayerPositionAtStep, CreatePlay.resolveStep,
        List.range_succ, List.find?, matchesMotion, TOLERANCE,
        show isMotionType .pass = false from rfl,
        show isMotionType .move = true from rfl]
      try norm_num
      try simp [Prod.ext_iff]

/-- C6 as amended: only move, dribble and screen actions reposition the
acting player; a pass action is ignored by both the resolver and the
interpolator (the player stays in place), while the three motion types are
interchangeable with each other. -/
theorem pass_ignored_motion (p : CourtPlayer) (a : CourtAction)
    (targetStep totalSteps : ℕ) (progress : ℚ) (t : ActionType)
    (hpass : a.type = .pass) (ht : isMotionType t = true) :
    CreatePlay.getPlayerPositionAtStep p [a] targetStep = (p.x, p.y) ∧
    Court3D.animAuthoringPos p [a] progress totalSteps = (p.x, p.y) ∧
    CreatePlay.getPlayerPositionAtStep p [{ a with type := t }] targetStep =
      CreatePlay.getPlayerPositionAtStep p [{ a with type := .move }] targetStep := by
  have hfind : ∀ cx cy step, ([a].find? (matchesMotion cx cy step)) = none := by
    intro cx cy step
    simp [List.find?, matchesMotion, hpass,
      show isMotionType .pass = false from rfl]
  refine ⟨getPlayerPositionAtStep_of_never_match p [a] targetStep hfind,
    animAuthoringPos_of_never_match p [a] progress totalSteps hfind, ?_⟩
  have hmm : ∀ cx cy step, matchesMotion cx cy step { a with type := t }
      = matchesMotion cx cy step { a with type := .move } := by
    intro cx cy step
    simp [matchesMotion, ht, show isMotionType .move = true from rfl]
  have hstep2 : ∀ (c : ℚ × ℚ) (step : ℕ),
      CreatePlay.resolveStep [{ a with type := t }] step c
        = CreatePlay.resolveStep [{ a with type := .move }] step c := by
    intro c step
    unfold CreatePlay.resolveStep
    cases h : matchesMotion c.1 c.2 step ({ a with type := ActionType.move }) with
    | true =>
      have h2 : matchesMotion c.1 c.2 step { a with type := t } = true :=
        (hmm c.1 c.2 step).trans h
      simp [List.find?, h, h2]
    | false =>
      have h2 : matchesMotion c.1 c.2 step { a with type := t } = false :=
        (hmm c.1 c.2 step).trans h
      simp [List.find?, h, h2]
  unfold CreatePlay.getPlayerPositionAtStep
  apply List.foldl_ext
  intro c step _
  exact hstep2 c step

/-- Witness for `pass_ignored_motion`: a concrete pass is ignored and a
dribble behaves exactly as a move. -/
theorem pass_ignored_motion_witness :
    CreatePlay.getPlayerPositionAtStep ⟨0, 0, 0⟩
        [⟨.pass, 0, 0, 100, 0, 0, none, none⟩] 1 = (0, 0) ∧
    Court3D.animAuthoringPos ⟨0, 0, 0⟩
        [⟨.pass, 0, 0, 100, 0, 0, none, none⟩] (1/2) 1 = (0, 0) ∧
    CreatePlay.getPlayerPositionAtStep ⟨0, 0, 0⟩
        [⟨.dribble, 0, 0, 100, 0, 0, none, none⟩] 1 =
      CreatePlay.getPlayerPositionAtStep ⟨0, 0, 0⟩
        [⟨.move, 0, 0, 100, 0, 0, none, none⟩] 1 :=
  pass_ignored_motion ⟨0, 0, 0⟩ ⟨.pass, 0, 0, 100, 0, 0, none, none⟩ 1 1 (1/2)
    .dribble rfl rfl

/-- C7: a step with no tolerance-matched action is "no motion", never an
error: a single unmatched resolver or interpolator step returns the entering
position unchanged, and on an empty action list both engines return the
player's base position (all functions are total, so nothing throws). -/
theorem unmatched_action_no_motion (actions : List CourtAction)
    (cx cy frac progress : ℚ) (completedStep : ℤ) (step : ℕ)
    (p : CourtPlayer) (totalSteps : ℕ)
    (hfind : actions.find? (matchesMotion cx cy step) = none) :
    CreatePlay.resolveStep actions step (cx, cy) = (cx, cy) ∧
    Court3D.animStep actions completedStep frac step (cx, cy) = (cx, cy) ∧
    CreatePlay.getPlayerPositionAtStep p [] totalSteps = (p.x, p.y) ∧
    Court3D.animAuthoringPos p [] progress totalSteps = (p.x, p.y) := by
  refine ⟨?_, ?_, ?_, ?_⟩
  · unfold CreatePlay.resolveStep
    rw [hfind]
  · unfold Court3D.animStep
    rw [hfind]
  · exact getPlayerPositionAtStep_of_never_match p [] totalSteps (fun _ _ _ => rfl)
  · exact animAuthoringPos_of_never_match p [] progress totalSteps (fun _ _ _ => rfl)

/-- Witness for `unmatched_action_no_motion`: an action whose origin
(300, 300) is far outside tolerance of the player at (0, 0) leaves the
player in place. -/
theorem unmatched_action_no_motion_witness :
    (([⟨.move, 300, 300, 400, 300, 0, none, none⟩] : List CourtAction).find?
        (matchesMotion 0 0 0) = none) ∧
    CreatePlay.resolveStep [⟨.move, 300, 300, 400, 300, 0, none, none⟩] 0 (0, 0)
      = (0, 0) :=
  ⟨by simp [List.find?, matchesMotion, TOLERANCE,
      show isMotionType .move = true from rfl]; norm_num,
   (unmatched_action_no_motion [⟨.move, 300, 300, 400, 300, 0, none, none⟩]
      0 0 0 0 0 0 ⟨0, 0, 0⟩ 0
      (by simp [List.find?, matchesMotion, TOLERANCE,
        show isMotionType .move = true from rfl]; norm_num)).1⟩

/-- C9: on every transition from not-animating to animating the driver
resets progress to 0 (and clears the ended flag) regardless of the previous
state, so the authoritative output trace of a run after stop() is identical
to a fresh run: it is a function of the play document and the per-tick
elapsed times alone. -/
theorem stop_start_reset_deterministic (s1 s2 : Court3D.DriverState)
    (players : List CourtPlayer) (actions : List CourtAction) (mode : CourtMode)
    (speed : ℚ) (dts : List ℚ) :
    Court3D.resetOnStart s1 = ⟨0, false⟩ ∧
    Court3D.runTicks players actions mode speed (Court3D.resetOnStart s1) dts =
      Court3D.runTicks players actions mode speed (Court3D.resetOnStart s2) dts :=
  ⟨rfl, rfl⟩

/-- C8: on a tick where progress reaches or passes `totalSteps`, the driver
clamps progress to exactly `totalSteps`, marks the animation ended, publishes
the final fully-resolved positions (equal to the resolver's full resolution
for every player), schedules the end notification once with the fixed 800 ms
hold, and every subsequent tick is a no-op publishing nothing — so the
notification fires exactly once. -/
theorem driver_end_clamps_and_holds (players : List CourtPlayer)
    (actions : List CourtAction) (mode : CourtMode) (speed dt : ℚ)
    (s : Court3D.DriverState) (hended : s.ended = false)
    (hreach : ((totalStepsOf actions : ℕ) : ℚ) ≤ s.progress + dt * speed) :
    (Court3D.tick players actions mode speed true dt s).1.progress
        = ((totalStepsOf actions : ℕ) : ℚ) ∧
    (Court3D.tick players actions mode speed true dt s).1.ended = true ∧
    (Court3D.tick players actions mode speed true dt s).2.published
        = some (Court3D.getAnimatedPlayerPositions players actions
            ((totalStepsOf actions : ℕ) : ℚ) (totalStepsOf actions) mode) ∧
    (Court3D.tick players actions mode speed true dt s).2.endScheduledAfterMs
        = some 800 ∧
    (∀ (b : Bool) (dt2 : ℚ),
      Court3D.tick players actions mode speed b dt2
          (Court3D.tick players actions mode speed true dt s).1
        = ((Court3D.tick players actions mode speed true dt s).1, ⟨none, none⟩)) ∧
    Court3D.getAnimatedPlayerPositions players actions
        ((totalStepsOf actions : ℕ) : ℚ) (totalStepsOf actions) mode
      = players.map (fun p =>
          (p.id, toCourtPos
            (CreatePlay.getPlayerPositionAtStep p actions (totalStepsOf actions)).1
            (CreatePlay.getPlayerPositionAtStep p actions (totalStepsOf actions)).2
            mode)) := by
  have htick : Court3D.tick players actions mode speed true dt s
      = (⟨((totalStepsOf actions : ℕ) : ℚ), true⟩,
         ⟨some (Court3D.getAnimatedPlayerPositions players actions
            ((totalStepsOf actions : ℕ) : ℚ) (totalStepsOf actions) mode),
          some 800⟩) := by
    simp [Court3D.tick, hended, hreach]
  rw [htick]
  refine ⟨rfl, rfl, rfl, rfl, ?_, ?_⟩
  · intro b dt2
    simp [Court3D.tick]
  · unfold Court3D.getAnimatedPlayerPositions
    have hfun : (fun p : CourtPlayer =>
        let c := Court3D.animAuthoringPos p actions
          ((totalStepsOf actions : ℕ) : ℚ) (totalStepsOf actions)
        (p.id, toCourtPos c.1 c.2 mode))
        = (fun p : CourtPlayer =>
          (p.id, toCourtPos
            (CreatePlay.getPlayerPositionAtStep p actions (totalStepsOf actions)).1
            (CreatePlay.getPlayerPositionAtStep p actions (totalStepsOf actions)).2
            mode)) := by
      funext p
      rw [animAuthoringPos_eq_resolve_of_le p actions (totalStepsOf actions)
        ((totalStepsOf actions : ℕ) : ℚ) le_rfl]
    rw [hfun]

/-- Witness for `driver_end_clamps_and_holds`: one player, one step-0 action,
progress 1/2 advanced by dt·speed = 1 reaches totalSteps = 1 and clamps
there. -/
theorem driver_end_clamps_and_holds_witness :
    ((⟨1/2, false⟩ : Court3D.DriverState).ended = false) ∧
    (((totalStepsOf [⟨.move, 0, 0, 100, 0, 0, none, none⟩] : ℕ) : ℚ)
        ≤ (⟨1/2, false⟩ : Court3D.DriverState).progress + 1 * 1) ∧
    (Court3D.tick [⟨0, 0, 0⟩] [⟨.move, 0, 0, 100, 0, 0, none, none⟩] .full 1 true 1
        ⟨1/2, false⟩).1.progress
      = ((totalStepsOf [⟨.move, 0, 0, 100, 0, 0, none, none⟩] : ℕ) : ℚ) :=
  ⟨rfl, by norm_num [totalStepsOf],
    (driver_end_clamps_and_holds [⟨0, 0, 0⟩] [⟨.move, 0, 0, 100, 0, 0, none, none⟩]
      .full 1 1 ⟨1/2, false⟩ rfl (by norm_num [totalStepsOf])).1⟩
